import Mathlib

/-!
# A shallow embedding of the `abby2` dynamic AABB tree

This file embeds the C++ header `include/abby2.hpp` (namespace `abby2`) in
Lean 4 and proves properties of the embedded program.

Modelling conventions:

* `double` is modelled as `ℚ` (`Rat`).  All counterexamples below use small
  dyadic values, on which IEEE double arithmetic is exact, so the `ℚ` model
  agrees with the C++ program on them.
* `unsigned int` node indices and particle ids are modelled as `Nat`; the
  sentinel `NULL_NODE = 0xffffffff` is the literal `4294967295`.  Where
  unsigned wrap-around matters (`nodeCapacity *= 2`, `nodeCapacity - 1`)
  it is modelled explicitly.
* `std::vector` is a `List`; an out-of-bounds `operator[]` access (undefined
  behaviour in C++) is modelled as the error `Err.oob`.  Reads that the
  source performs only after establishing the index (loop bounds tied to the
  vector's own size) use `getD`.
* a thrown `std::invalid_argument` is one of the `Err.*` constructors below,
  one per distinct message string in the source;
* a failed `assert` (active in debug builds) is `Err.assertFail`;
* loops are given explicit fuel; exhausting it is `Err.fuel` (the concrete
  fuel bounds are generous enough for every terminating execution).
* `std::unordered_map<unsigned,unsigned>` is an association list with unique
  keys; `operator[]` default-inserts `0` exactly as in C++.

Tree state is threaded with `EStateM Err Tree`, whose error result keeps the
state at the moment of the throw, matching the C++ object's state after an
exception escapes a member function.
-/

namespace Abby

/-- `abby2::NULL_NODE = 0xffffffff`. -/
def NULL_NODE : Nat := 4294967295

/-- Failure modes of an execution of the embedded code: each
`std::invalid_argument` message of the source, failed assertions,
out-of-bounds container accesses (undefined behaviour in C++), and fuel
exhaustion of the model's loop counters. -/
inductive Err : Type where
  /-- `[ERROR]: Invalid dimensionality!` (tree constructor) -/
  | invalidDimensionality : Err
  /-- `[ERROR]: Particle already exists in tree!` -/
  | duplicateParticle : Err
  /-- `[ERROR]: Dimensionality mismatch!` -/
  | dimMismatch : Err
  /-- `[ERROR]: AABB lower bound is greater than the upper bound!` -/
  | invertedBounds : Err
  /-- `[ERROR]: Invalid particle index!` -/
  | invalidParticle : Err
  /-- a failed `assert` (debug build) -/
  | assertFail : Err
  /-- out-of-bounds access at the given index (undefined behaviour in C++) -/
  | oob (idx : Nat) : Err
  /-- model fuel exhausted (the C++ loop would not have terminated yet) -/
  | fuel : Err
deriving DecidableEq, Repr

/-- The `abby2::AABB` class.  `surfaceArea` and `centre` are the cached
fields; a default-constructed `AABB` has empty bounds (`surfaceArea` is
uninitialised in C++ and modelled as `0`). -/
structure AABB : Type where
  lowerBound : List ℚ := []
  upperBound : List ℚ := []
  centre : List ℚ := []
  surfaceArea : ℚ := 0
deriving DecidableEq, Repr

instance : Inhabited AABB := ⟨{}⟩

/-- `AABB::computeSurfaceArea`: `2 * Σ_{d1} Π_{d2 ≠ d1} (upper[d2] - lower[d2])`,
looping over `lowerBound.size()`. -/
def AABB.computeSurfaceArea (a : AABB) : ℚ :=
  2 * ((List.range a.lowerBound.length).map (fun d1 =>
    ((List.range a.lowerBound.length).filter (fun d2 => d2 ≠ d1)).foldl
      (fun product d2 => product * (a.upperBound.getD d2 0 - a.lowerBound.getD d2 0)) 1)).sum

/-- `AABB::computeCentre`: componentwise midpoint, sized by `lowerBound.size()`. -/
def AABB.computeCentre (a : AABB) : List ℚ :=
  (List.range a.lowerBound.length).map
    (fun i => (1/2 : ℚ) * (a.lowerBound.getD i 0 + a.upperBound.getD i 0))

/-- `std::vector<double>::resize`: keep a prefix, pad with `0.0`. -/
def resizeQ (l : List ℚ) (n : Nat) : List ℚ :=
  (List.range n).map (fun i => l.getD i 0)

/-- The two-argument constructor
`AABB(const std::vector<double>& lowerBound_, const std::vector<double>& upperBound_)`.

Faithful to the source: the constructor never assigns the arguments to the
member vectors, so the dimensionality check and the bounds-validation loop
inspect the default-constructed (empty) members and the produced value has
empty bounds. -/
def AABB.fromBounds (lowerBound' upperBound' : List ℚ) : Except Err AABB :=
  let a : AABB := {}
  if a.lowerBound.length ≠ a.upperBound.length then
    Except.error Err.dimMismatch
  else if ((List.range a.lowerBound.length).filter
      (fun i => decide (a.upperBound.getD i 0 < a.lowerBound.getD i 0))) ≠ [] then
    Except.error Err.invertedBounds
  else
    Except.ok { a with surfaceArea := a.computeSurfaceArea, centre := a.computeCentre }

/-- `AABB::merge(aabb1, aabb2)`: asserts matching sizes, takes componentwise
`min` / `max` (both result vectors resized to `aabb1.lowerBound.size()`),
then recomputes the cached surface area and centre.  Returns `none` when an
assert would fire. -/
def AABB.merge (aabb1 aabb2 : AABB) : Option AABB :=
  if aabb1.lowerBound.length ≠ aabb2.lowerBound.length then none
  else if aabb1.upperBound.length ≠ aabb2.upperBound.length then none
  else
    let lb := (List.range aabb1.lowerBound.length).map
      (fun i => min (aabb1.lowerBound.getD i 0) (aabb2.lowerBound.getD i 0))
    let ub := (List.range aabb1.lowerBound.length).map
      (fun i => max (aabb1.upperBound.getD i 0) (aabb2.upperBound.getD i 0))
    let merged : AABB := { lowerBound := lb, upperBound := ub }
    some { merged with surfaceArea := merged.computeSurfaceArea,
                       centre := merged.computeCentre }

/-- `AABB::contains(aabb)`: asserts `aabb.lowerBound.size() == lowerBound.size()`
(`none` when it fails), then checks componentwise inclusion over
`lowerBound.size()` indices. -/
def AABB.contains (self aabb : AABB) : Option Bool :=
  if aabb.lowerBound.length ≠ self.lowerBound.length then none
  else
    some ((List.range self.lowerBound.length).all (fun i =>
      !(decide (aabb.lowerBound.getD i 0 < self.lowerBound.getD i 0)) &&
      !(decide (aabb.upperBound.getD i 0 > self.upperBound.getD i 0))))

/-- `AABB::overlaps(aabb, touchIsOverlap)`: asserts matching sizes, then the
non-strict or strict separating-axis test over `lowerBound.size()` indices. -/
def AABB.overlaps (self aabb : AABB) (touchIsOverlap : Bool) : Option Bool :=
  if aabb.lowerBound.length ≠ self.lowerBound.length then none
  else if touchIsOverlap then
    some ((List.range self.lowerBound.length).all (fun i =>
      !(decide (aabb.upperBound.getD i 0 < self.lowerBound.getD i 0)) &&
      !(decide (aabb.lowerBound.getD i 0 > self.upperBound.getD i 0))))
  else
    some ((List.range self.lowerBound.length).all (fun i =>
      !(decide (aabb.upperBound.getD i 0 ≤ self.lowerBound.getD i 0)) &&
      !(decide (aabb.lowerBound.getD i 0 ≥ self.upperBound.getD i 0))))

/-- `AABB::setDimension(dimension)`: resize both bound vectors. -/
def AABB.setDimension (a : AABB) (dimension : Nat) : AABB :=
  { a with lowerBound := resizeQ a.lowerBound dimension,
           upperBound := resizeQ a.upperBound dimension }

/-- The `abby2::Node` struct.  In C++ a default-constructed `Node` has
indeterminate members; the model uses fixed defaults (`0`), which the
program never reads before writing except through already-undefined paths. -/
structure Node : Type where
  aabb : AABB := {}
  parent : Nat := 0
  next : Nat := 0
  left : Nat := 0
  right : Nat := 0
  height : Int := 0
  particle : Nat := 0
deriving DecidableEq, Repr

instance : Inhabited Node := ⟨{}⟩

/-- `Node::isLeaf(): left == NULL_NODE`. -/
def Node.isLeaf (n : Node) : Bool :=
  n.left = NULL_NODE

/-- The `abby2::Tree` class state (all data members). -/
structure Tree : Type where
  root : Nat
  nodes : List Node
  nodeCount : Nat
  nodeCapacity : Nat
  freeList : Nat
  dimension : Nat
  skinThickness : ℚ
  particleMap : List (Nat × Nat)
  touchIsOverlap : Bool
deriving DecidableEq, Repr

/-- The tree-operation monad: state threading with C++-style exceptions
(the state at the moment of the throw is retained). -/
abbrev TreeM (α : Type) : Type := EStateM Err Tree α

/-- Read `nodes[i]` (UB when out of bounds, modelled as `Err.oob`). -/
def getN (i : Nat) : TreeM Node := do
  let s ← EStateM.get
  match s.nodes.get? i with
  | some n => pure n
  | none => EStateM.throw (Err.oob i)

/-- Write `nodes[i]` through an update of the record (UB when out of bounds). -/
def modifyN (i : Nat) (f : Node → Node) : TreeM Unit := do
  let s ← EStateM.get
  match s.nodes.get? i with
  | some n => EStateM.set { s with nodes := s.nodes.set i (f n) }
  | none => EStateM.throw (Err.oob i)

/-- Apply a pure update to the whole tree state. -/
def modifyT (f : Tree → Tree) : TreeM Unit := do
  let s ← EStateM.get
  EStateM.set (f s)

/-- Lift an asserted pure computation (`none` = failed assert). -/
def liftA (x : Option α) : TreeM α :=
  match x with
  | some a => pure a
  | none => EStateM.throw Err.assertFail

/-- Lift a pure computation that can throw. -/
def liftE (x : Except Err α) : TreeM α :=
  match x with
  | Except.ok a => pure a
  | Except.error e => EStateM.throw e

/-- Read `v[i]` of a local `std::vector<double>` (UB when out of bounds). -/
def getQ (l : List ℚ) (i : Nat) : TreeM ℚ :=
  match l.get? i with
  | some q => pure q
  | none => EStateM.throw (Err.oob i)

/-- `assert cond` of the source: error in the model when the condition fails
(debug-build semantics). -/
def assertM (p : Prop) [Decidable p] : TreeM Unit :=
  if p then pure () else EStateM.throw Err.assertFail

/-- `particleMap.count(p)` (0 or 1, keys are unique). -/
def pmCount (m : List (Nat × Nat)) (p : Nat) : Nat :=
  if (m.lookup p).isSome then 1 else 0

/-- `particleMap.find(p)->second` via `Option`. -/
def pmFind (m : List (Nat × Nat)) (p : Nat) : Option Nat :=
  m.lookup p

/-- `particleMap.erase(it)` for the entry with key `p`. -/
def pmErase (m : List (Nat × Nat)) (p : Nat) : List (Nat × Nat) :=
  m.filter (fun e => e.1 ≠ p)

end Abby

namespace Abby

/-- `unordered_map::insert(value_type(p, n))`: inserts only when the key is
absent. -/
def pmInsert (m : List (Nat × Nat)) (p n : Nat) : List (Nat × Nat) :=
  if (m.lookup p).isSome then m else m ++ [(p, n)]

/-- The `Tree` constructor
`Tree(dimension_, skinThickness_, nParticles, touchIsOverlap)`.
With `nParticles = 0` the free-list loop bound `nodeCapacity - 1` underflows
(unsigned) and the first iteration indexes the empty pool. -/
def Tree.make (dimension' : Nat) (skinThickness' : ℚ) (nParticles : Nat)
    (touchIsOverlap' : Bool) : Except Err Tree :=
  if dimension' < 2 then Except.error Err.invalidDimensionality
  else if nParticles = 0 then Except.error (Err.oob 0)
  else
    Except.ok {
      root := NULL_NODE
      nodes := (List.range nParticles).map (fun i =>
        { next := if i = nParticles - 1 then NULL_NODE else i + 1, height := -1 })
      nodeCount := 0
      nodeCapacity := nParticles
      freeList := 0
      dimension := dimension'
      skinThickness := skinThickness'
      particleMap := []
      touchIsOverlap := touchIsOverlap' }

/-- The grown pool state of `Tree::allocateNode`: capacity doubled
(wrapping modulo `2^32`), new slots threaded into a fresh free list with
`height = -1`, `freeList` pointing at the first new slot. -/
def growState (s : Tree) : Tree :=
  { s with
    nodeCapacity := (s.nodeCapacity * 2) % 4294967296
    nodes := (List.range ((s.nodeCapacity * 2) % 4294967296)).map (fun i =>
      let base := s.nodes.getD i {}
      if i = (s.nodeCapacity * 2) % 4294967296 - 1 then
        { base with next := NULL_NODE, height := -1 }
      else if s.nodeCount ≤ i then { base with next := i + 1, height := -1 }
      else base)
    freeList := s.nodeCount }

/-- The pool-growth step of `Tree::allocateNode`, taken when the free list
is empty. -/
def growPool : TreeM Unit := do
  let s ← EStateM.get
  assertM ((s.nodeCount = s.nodeCapacity))
  if (s.nodeCapacity * 2) % 4294967296 = 0 then EStateM.throw (Err.oob 0)
  else EStateM.set (growState s)

/-- The pop step of `Tree::allocateNode`: peel the head off the free list,
clear its pointers, zero its height, size its AABB, bump `nodeCount`. -/
def popFree : TreeM Nat := do
  let s1 ← EStateM.get
  let node := s1.freeList
  let nd ← getN node
  EStateM.set { s1 with freeList := nd.next }
  let d := (← EStateM.get).dimension
  modifyN node (fun n =>
    { n with parent := NULL_NODE, left := NULL_NODE, right := NULL_NODE,
             height := 0, aabb := n.aabb.setDimension d })
  modifyT (fun s2 => { s2 with nodeCount := s2.nodeCount + 1 })
  pure node

/-- `Tree::allocateNode`.  When the free list is empty the pool doubles;
then the head of the free list is popped and reinitialised. -/
def allocateNode : TreeM Nat := do
  let s ← EStateM.get
  if s.freeList = NULL_NODE then growPool
  popFree

/-- `Tree::freeNode(node)`: push onto the free list, mark height `-1`,
decrement `nodeCount`. -/
def freeNode (node : Nat) : TreeM Unit := do
  let s ← EStateM.get
  assertM ((node < s.nodeCapacity))
  assertM ((0 < s.nodeCount))
  modifyN node (fun n => { n with next := s.freeList, height := -1 })
  modifyT (fun s2 => { s2 with freeList := node, nodeCount := s2.nodeCount - 1 })

/-- `Tree::balance(node)`: the rotation step, transcribed write-for-write
from the source (including the `.right` assignments in the left-rotation
branch). -/
def balance (node : Nat) : TreeM Nat := do
  assertM ((node ≠ NULL_NODE))
  let nd ← getN node
  if nd.isLeaf ∨ nd.height < 2 then pure node
  else do
    let left := nd.left
    let right := nd.right
    let s ← EStateM.get
    assertM ((left < s.nodeCapacity))
    assertM ((right < s.nodeCapacity))
    let currentBalance := (← getN right).height - (← getN left).height
    if currentBalance > 1 then do
      let rightLeft := (← getN right).left
      let rightRight := (← getN right).right
      let s2 ← EStateM.get
      assertM ((rightLeft < s2.nodeCapacity))
      assertM ((rightRight < s2.nodeCapacity))
      modifyN right (fun n => { n with left := node })
      let npar := (← getN node).parent
      modifyN right (fun n => { n with parent := npar })
      modifyN node (fun n => { n with parent := right })
      let rp := (← getN right).parent
      if rp ≠ NULL_NODE then do
        if (← getN rp).left = node then modifyN rp (fun n => { n with left := right })
        else do
          assertM (((← getN rp).right = node))
          modifyN rp (fun n => { n with right := right })
      else modifyT (fun s3 => { s3 with root := right })
      if (← getN rightLeft).height > (← getN rightRight).height then do
        modifyN right (fun n => { n with right := rightLeft })
        modifyN node (fun n => { n with right := rightRight })
        modifyN rightRight (fun n => { n with parent := node })
        let a1 ← liftA (AABB.merge (← getN left).aabb (← getN rightRight).aabb)
        modifyN node (fun n => { n with aabb := a1 })
        let a2 ← liftA (AABB.merge (← getN node).aabb (← getN rightLeft).aabb)
        modifyN right (fun n => { n with aabb := a2 })
        let h1 := 1 + max (← getN left).height (← getN rightRight).height
        modifyN node (fun n => { n with height := h1 })
        let h2 := 1 + max (← getN node).height (← getN rightLeft).height
        modifyN right (fun n => { n with height := h2 })
      else do
        modifyN right (fun n => { n with right := rightRight })
        modifyN node (fun n => { n with right := rightLeft })
        modifyN rightLeft (fun n => { n with parent := node })
        let a1 ← liftA (AABB.merge (← getN left).aabb (← getN rightLeft).aabb)
        modifyN node (fun n => { n with aabb := a1 })
        let a2 ← liftA (AABB.merge (← getN node).aabb (← getN rightRight).aabb)
        modifyN right (fun n => { n with aabb := a2 })
        let h1 := 1 + max (← getN left).height (← getN rightLeft).height
        modifyN node (fun n => { n with height := h1 })
        let h2 := 1 + max (← getN node).height (← getN rightRight).height
        modifyN right (fun n => { n with height := h2 })
      pure right
    else if currentBalance < -1 then do
      let leftLeft := (← getN left).left
      let leftRight := (← getN left).right
      let s2 ← EStateM.get
      assertM ((leftLeft < s2.nodeCapacity))
      assertM ((leftRight < s2.nodeCapacity))
      modifyN left (fun n => { n with left := node })
      let npar := (← getN node).parent
      modifyN left (fun n => { n with parent := npar })
      modifyN node (fun n => { n with parent := left })
      let lp := (← getN left).parent
      if lp ≠ NULL_NODE then do
        if (← getN lp).left = node then modifyN lp (fun n => { n with left := left })
        else do
          assertM (((← getN lp).right = node))
          modifyN lp (fun n => { n with right := left })
      else modifyT (fun s3 => { s3 with root := left })
      if (← getN leftLeft).height > (← getN leftRight).height then do
        modifyN left (fun n => { n with right := leftLeft })
        modifyN node (fun n => { n with left := leftRight })
        modifyN leftRight (fun n => { n with parent := node })
        let a1 ← liftA (AABB.merge (← getN right).aabb (← getN leftRight).aabb)
        modifyN node (fun n => { n with aabb := a1 })
        let a2 ← liftA (AABB.merge (← getN node).aabb (← getN leftLeft).aabb)
        modifyN left (fun n => { n with aabb := a2 })
        let h1 := 1 + max (← getN right).height (← getN leftRight).height
        modifyN node (fun n => { n with height := h1 })
        let h2 := 1 + max (← getN node).height (← getN leftLeft).height
        modifyN left (fun n => { n with height := h2 })
      else do
        modifyN left (fun n => { n with right := leftRight })
        modifyN node (fun n => { n with left := leftLeft })
        modifyN leftLeft (fun n => { n with parent := node })
        let a1 ← liftA (AABB.merge (← getN right).aabb (← getN leftLeft).aabb)
        modifyN node (fun n => { n with aabb := a1 })
        let a2 ← liftA (AABB.merge (← getN node).aabb (← getN leftRight).aabb)
        modifyN left (fun n => { n with aabb := a2 })
        let h1 := 1 + max (← getN right).height (← getN leftRight).height
        modifyN node (fun n => { n with height := h1 })
        let h2 := 1 + max (← getN node).height (← getN leftRight).height
        modifyN left (fun n => { n with height := h2 })
      pure left
    else pure node

/-- The SAH descent loop of `Tree::insertLeaf` (while `!nodes[index].isLeaf()`). -/
def sahDescend (leafAABB : AABB) : Nat → Nat → TreeM Nat
  | _, 0 => EStateM.throw Err.fuel
  | index, fuel + 1 => do
    let nd ← getN index
    if nd.isLeaf then pure index
    else do
      let left := nd.left
      let right := nd.right
      let surfaceArea := nd.aabb.surfaceArea
      let combinedAABB ← liftA (AABB.merge nd.aabb leafAABB)
      let combinedSurfaceArea := combinedAABB.surfaceArea
      let cost := 2 * combinedSurfaceArea
      let inheritanceCost := 2 * (combinedSurfaceArea - surfaceArea)
      let ndLeft ← getN left
      let costLeft ←
        if ndLeft.isLeaf then do
          let aabb ← liftA (AABB.merge leafAABB ndLeft.aabb)
          pure (aabb.surfaceArea + inheritanceCost)
        else do
          let aabb ← liftA (AABB.merge leafAABB ndLeft.aabb)
          pure ((aabb.surfaceArea - ndLeft.aabb.surfaceArea) + inheritanceCost)
      let ndRight ← getN right
      let costRight ←
        if ndRight.isLeaf then do
          let aabb ← liftA (AABB.merge leafAABB ndRight.aabb)
          pure (aabb.surfaceArea + inheritanceCost)
        else do
          let aabb ← liftA (AABB.merge leafAABB ndRight.aabb)
          pure ((aabb.surfaceArea - ndRight.aabb.surfaceArea) + inheritanceCost)
      if cost < costLeft ∧ cost < costRight then pure index
      else if costLeft < costRight then sahDescend leafAABB left fuel
      else sahDescend leafAABB right fuel

/-- The bottom-up fix-up loop of `Tree::insertLeaf` (walk back up fixing
heights and AABBs). -/
def insertWalk : Nat → Nat → TreeM Unit
  | _, 0 => EStateM.throw Err.fuel
  | index, fuel + 1 => do
    if index = NULL_NODE then pure ()
    else do
      let index ← balance index
      let nd ← getN index
      let left := nd.left
      let right := nd.right
      assertM ((left ≠ NULL_NODE))
      assertM ((right ≠ NULL_NODE))
      let h := 1 + max (← getN left).height (← getN right).height
      modifyN index (fun n => { n with height := h })
      let merged ← liftA (AABB.merge (← getN left).aabb (← getN right).aabb)
      modifyN index (fun n => { n with aabb := merged })
      let nd2 ← getN index
      insertWalk nd2.parent fuel

/-- `Tree::insertLeaf(leaf)`. -/
def insertLeaf (leaf : Nat) : TreeM Unit := do
  let s ← EStateM.get
  if s.root = NULL_NODE then do
    EStateM.set { s with root := leaf }
    modifyN leaf (fun n => { n with parent := NULL_NODE })
  else do
    let leafAABB := (← getN leaf).aabb
    let sibling ← sahDescend leafAABB s.root (s.nodes.length + 1)
    let oldParent := (← getN sibling).parent
    let newParent ← allocateNode
    modifyN newParent (fun n => { n with parent := oldParent })
    let sibAABB := (← getN sibling).aabb
    let merged ← liftA (AABB.merge leafAABB sibAABB)
    modifyN newParent (fun n => { n with aabb := merged })
    let sibHeight := (← getN sibling).height
    modifyN newParent (fun n => { n with height := sibHeight + 1 })
    if oldParent ≠ NULL_NODE then do
      if (← getN oldParent).left = sibling then
        modifyN oldParent (fun n => { n with left := newParent })
      else modifyN oldParent (fun n => { n with right := newParent })
      modifyN newParent (fun n => { n with left := sibling })
      modifyN newParent (fun n => { n with right := leaf })
      modifyN sibling (fun n => { n with parent := newParent })
      modifyN leaf (fun n => { n with parent := newParent })
    else do
      modifyN newParent (fun n => { n with left := sibling })
      modifyN newParent (fun n => { n with right := leaf })
      modifyN sibling (fun n => { n with parent := newParent })
      modifyN leaf (fun n => { n with parent := newParent })
      modifyT (fun s2 => { s2 with root := newParent })
    let idx := (← getN leaf).parent
    insertWalk idx ((← EStateM.get).nodes.length + 1)

/-- The ancestor fix-up loop of `Tree::removeLeaf` (AABB first, then height;
no `NULL_NODE` asserts, matching the source). -/
def removeWalk : Nat → Nat → TreeM Unit
  | _, 0 => EStateM.throw Err.fuel
  | index, fuel + 1 => do
    if index = NULL_NODE then pure ()
    else do
      let index ← balance index
      let nd ← getN index
      let left := nd.left
      let right := nd.right
      let merged ← liftA (AABB.merge (← getN left).aabb (← getN right).aabb)
      modifyN index (fun n => { n with aabb := merged })
      let h := 1 + max (← getN left).height (← getN right).height
      modifyN index (fun n => { n with height := h })
      let nd2 ← getN index
      removeWalk nd2.parent fuel

/-- `Tree::removeLeaf(leaf)`. -/
def removeLeaf (leaf : Nat) : TreeM Unit := do
  let s ← EStateM.get
  if leaf = s.root then EStateM.set { s with root := NULL_NODE }
  else do
    let parent := (← getN leaf).parent
    let grandParent := (← getN parent).parent
    let ndP ← getN parent
    let sibling := if ndP.left = leaf then ndP.right else ndP.left
    if grandParent ≠ NULL_NODE then do
      if (← getN grandParent).left = parent then
        modifyN grandParent (fun n => { n with left := sibling })
      else modifyN grandParent (fun n => { n with right := sibling })
      modifyN sibling (fun n => { n with parent := grandParent })
      freeNode parent
      removeWalk grandParent ((← EStateM.get).nodes.length + 1)
    else do
      modifyT (fun s2 => { s2 with root := sibling })
      modifyN sibling (fun n => { n with parent := NULL_NODE })
      freeNode parent

end Abby

namespace Abby

/-- The bounds-validation-and-assignment loop of `Tree::insertParticle`
(validate `lower[i] ≤ upper[i]`, write the raw bounds into the node's AABB,
one index at a time; a violation throws with the earlier writes retained). -/
def insBoundsLoop (node : Nat) (lowerBound upperBound : List ℚ) :
    List Nat → TreeM Unit
  | [] => pure ()
  | i :: rest => do
    let l ← getQ lowerBound i
    let u ← getQ upperBound i
    if l > u then EStateM.throw Err.invertedBounds
    else do
      let nd ← getN node
      if i < nd.aabb.lowerBound.length ∧ i < nd.aabb.upperBound.length then do
        modifyN node (fun n =>
          { n with aabb := { n.aabb with lowerBound := n.aabb.lowerBound.set i l,
                                         upperBound := n.aabb.upperBound.set i u } })
        insBoundsLoop node lowerBound upperBound rest
      else EStateM.throw (Err.oob i)

/-- `Tree::insertParticle(particle, lowerBound, upperBound)`. -/
def insertParticle (particle : Nat) (lowerBound upperBound : List ℚ) :
    TreeM Unit := do
  let s ← EStateM.get
  if pmCount s.particleMap particle ≠ 0 then EStateM.throw Err.duplicateParticle
  else if lowerBound.length ≠ s.dimension ∨ upperBound.length ≠ s.dimension then
    EStateM.throw Err.dimMismatch
  else do
    let node ← allocateNode
    let d := s.dimension
    insBoundsLoop node lowerBound upperBound (List.range d)
    let size := (List.range d).map (fun i => upperBound.getD i 0 - lowerBound.getD i 0)
    let sk := s.skinThickness
    modifyN node (fun n =>
      { n with aabb := { n.aabb with
          lowerBound := (List.range d).map
            (fun i => n.aabb.lowerBound.getD i 0 - sk * size.getD i 0),
          upperBound := (List.range d).map
            (fun i => n.aabb.upperBound.getD i 0 + sk * size.getD i 0) } })
    modifyN node (fun n =>
      { n with aabb := { n.aabb with surfaceArea := n.aabb.computeSurfaceArea } })
    modifyN node (fun n =>
      { n with aabb := { n.aabb with centre := n.aabb.computeCentre } })
    modifyN node (fun n => { n with height := 0 })
    insertLeaf node
    modifyT (fun s2 => { s2 with particleMap := pmInsert s2.particleMap particle node })
    modifyN node (fun n => { n with particle := particle })

/-- `Tree::nParticles()`. -/
def nParticles : TreeM Nat := do
  pure (← EStateM.get).particleMap.length

/-- `Tree::removeParticle(particle)`. -/
def removeParticle (particle : Nat) : TreeM Unit := do
  let s ← EStateM.get
  match pmFind s.particleMap particle with
  | none => EStateM.throw Err.invalidParticle
  | some node => do
    EStateM.set { s with particleMap := pmErase s.particleMap particle }
    let s2 ← EStateM.get
    assertM ((node < s2.nodeCapacity))
    assertM (← getN node).isLeaf
    removeLeaf node
    freeNode node

/-- The body of the `Tree::removeAll` iteration over the particle map
(the map itself is only cleared afterwards). -/
def removeAllLoop : List (Nat × Nat) → TreeM Unit
  | [] => pure ()
  | (_, node) :: rest => do
    let s ← EStateM.get
    assertM ((node < s.nodeCapacity))
    assertM (← getN node).isLeaf
    removeLeaf node
    freeNode node
    removeAllLoop rest

/-- `Tree::removeAll()`. -/
def removeAll : TreeM Unit := do
  let s ← EStateM.get
  removeAllLoop s.particleMap
  modifyT (fun s2 => { s2 with particleMap := [] })

/-- The bounds-validation loop of `Tree::updateParticle` (no writes). -/
def valBoundsLoop (lowerBound upperBound : List ℚ) : List Nat → TreeM Unit
  | [] => pure ()
  | i :: rest => do
    let l ← getQ lowerBound i
    let u ← getQ upperBound i
    if l > u then EStateM.throw Err.invertedBounds
    else valBoundsLoop lowerBound upperBound rest

/-- The fattening loop of `Tree::updateParticle`, acting on the local
`aabb` object (`aabb.lowerBound[i] -= s·size[i]`, `aabb.upperBound[i] += s·size[i]`). -/
def fattenLoop (sk : ℚ) (size : List ℚ) : AABB → List Nat → Except Err AABB
  | a, [] => Except.ok a
  | a, i :: rest =>
    if i < a.lowerBound.length then
      if i < a.upperBound.length then
        fattenLoop sk size
          { a with
            lowerBound := a.lowerBound.set i (a.lowerBound.getD i 0 - sk * size.getD i 0),
            upperBound := a.upperBound.set i (a.upperBound.getD i 0 + sk * size.getD i 0) }
          rest
      else Except.error (Err.oob i)
    else Except.error (Err.oob i)

/-- `Tree::updateParticle(particle, lowerBound, upperBound, alwaysReinsert)`.
Note the source's `&&` in the dimensionality check and the construction of
the new AABB through the two-argument constructor. -/
def updateParticle (particle : Nat) (lowerBound upperBound : List ℚ)
    (alwaysReinsert : Bool) : TreeM Bool := do
  let s ← EStateM.get
  if lowerBound.length ≠ s.dimension ∧ upperBound.length ≠ s.dimension then
    EStateM.throw Err.dimMismatch
  else
    match pmFind s.particleMap particle with
    | none => EStateM.throw Err.invalidParticle
    | some node => do
      assertM ((node < s.nodeCapacity))
      assertM (← getN node).isLeaf
      valBoundsLoop lowerBound upperBound (List.range s.dimension)
      let size := (List.range s.dimension).map
        (fun i => upperBound.getD i 0 - lowerBound.getD i 0)
      let aabb ← liftE (AABB.fromBounds lowerBound upperBound)
      let skip ←
        if alwaysReinsert then pure false
        else do
          let nd ← getN node
          liftA (nd.aabb.contains aabb)
      if skip then pure false
      else do
        removeLeaf node
        let aabb2 ← liftE (fattenLoop s.skinThickness size aabb (List.range s.dimension))
        modifyN node (fun n => { n with aabb := aabb2 })
        modifyN node (fun n =>
          { n with aabb := { n.aabb with surfaceArea := n.aabb.computeSurfaceArea } })
        modifyN node (fun n =>
          { n with aabb := { n.aabb with centre := n.aabb.computeCentre } })
        insertLeaf node
        pure true

/-- The stack-driven loop of `Tree::query(particle, aabb)`.  The stack is a
`List` whose head is the `back()` of the `std::vector`; the result list
`particles` grows by `push_back`.  Note that `nodes[node].aabb` is read
before `node` is compared against `NULL_NODE`, exactly as in the source. -/
def queryLoop (particle : Nat) (aabb : AABB) :
    Nat → List Nat → List Nat → TreeM (List Nat)
  | 0, _, _ => EStateM.throw Err.fuel
  | _ + 1, [], particles => pure particles
  | fuel + 1, node :: stack, particles => do
    let nd ← getN node
    let nodeAABB := nd.aabb
    if node = NULL_NODE then queryLoop particle aabb fuel stack particles
    else do
      let s ← EStateM.get
      let ov ← liftA (aabb.overlaps nodeAABB s.touchIsOverlap)
      if ov then
        if nd.isLeaf then
          if nd.particle ≠ particle then
            queryLoop particle aabb fuel stack (particles ++ [nd.particle])
          else queryLoop particle aabb fuel stack particles
        else queryLoop particle aabb fuel (nd.right :: nd.left :: stack) particles
      else queryLoop particle aabb fuel stack particles

/-- `Tree::query(particle, aabb)` (two-argument overload). -/
def query2 (particle : Nat) (aabb : AABB) : TreeM (List Nat) := do
  let s ← EStateM.get
  queryLoop particle aabb (2 * s.nodes.length + 2) [s.root] []

/-- `Tree::query(particle)` (by particle id). -/
def query1 (particle : Nat) : TreeM (List Nat) := do
  let s ← EStateM.get
  if pmCount s.particleMap particle = 0 then EStateM.throw Err.invalidParticle
  else
    match pmFind s.particleMap particle with
    | none => EStateM.throw Err.invalidParticle
    | some node => do
      let nd ← getN node
      query2 particle nd.aabb

/-- `Tree::query(aabb)` (AABB-only overload): empty map gives an empty
result, otherwise delegates with `std::numeric_limits<unsigned int>::max()`
as the excluded particle. -/
def queryAABB (aabb : AABB) : TreeM (List Nat) := do
  let s ← EStateM.get
  if s.particleMap.length = 0 then pure []
  else query2 4294967295 aabb

/-- `Tree::getAABB(particle)`: `nodes[particleMap[particle]].aabb`, where
`particleMap[particle]` is `unordered_map::operator[]` — an absent key is
default-inserted with mapped value `0`. -/
def getAABB (particle : Nat) : TreeM AABB := do
  let s ← EStateM.get
  match s.particleMap.lookup particle with
  | some node => do
    let nd ← getN node
    pure nd.aabb
  | none => do
    EStateM.set { s with particleMap := s.particleMap ++ [(particle, 0)] }
    let nd ← getN 0
    pure nd.aabb

/-- `Tree::getHeight()`. -/
def getHeight : TreeM Int := do
  let s ← EStateM.get
  if s.root = NULL_NODE then pure 0
  else pure (← getN s.root).height

/-- `Tree::getNodeCount()`. -/
def getNodeCount : TreeM Nat := do
  pure (← EStateM.get).nodeCount

/-- `Tree::computeHeight(node)` (recursive; fuel-bounded). -/
def computeHeightRec : Nat → Nat → TreeM Nat
  | _, 0 => EStateM.throw Err.fuel
  | node, fuel + 1 => do
    let s ← EStateM.get
    assertM ((node < s.nodeCapacity))
    let nd ← getN node
    if nd.isLeaf then pure 0
    else do
      let h1 ← computeHeightRec nd.left fuel
      let h2 ← computeHeightRec nd.right fuel
      pure (1 + max h1 h2)

/-- `Tree::validateStructure(node)` (debug-build assertions; fuel-bounded). -/
def validateStructure : Nat → Nat → TreeM Unit
  | _, 0 => EStateM.throw Err.fuel
  | node, fuel + 1 => do
    if node = NULL_NODE then pure ()
    else do
      let s ← EStateM.get
      if node = s.root then assertM (((← getN node).parent = NULL_NODE))
      let nd ← getN node
      let left := nd.left
      let right := nd.right
      if nd.isLeaf then do
        assertM ((left = NULL_NODE))
        assertM ((right = NULL_NODE))
        assertM ((nd.height = 0))
      else do
        assertM ((left < s.nodeCapacity))
        assertM ((right < s.nodeCapacity))
        assertM (((← getN left).parent = node))
        assertM (((← getN right).parent = node))
        validateStructure left fuel
        validateStructure right fuel

/-- `Tree::validateMetrics(node)` (debug-build assertions; fuel-bounded). -/
def validateMetrics : Nat → Nat → TreeM Unit
  | _, 0 => EStateM.throw Err.fuel
  | node, fuel + 1 => do
    if node = NULL_NODE then pure ()
    else do
      let s ← EStateM.get
      let nd ← getN node
      let left := nd.left
      let right := nd.right
      if nd.isLeaf then do
        assertM ((left = NULL_NODE))
        assertM ((right = NULL_NODE))
        assertM ((nd.height = 0))
      else do
        assertM ((left < s.nodeCapacity))
        assertM ((right < s.nodeCapacity))
        let height1 := (← getN left).height
        let height2 := (← getN right).height
        assertM ((nd.height = 1 + max height1 height2))
        let aabb ← liftA (AABB.merge (← getN left).aabb (← getN right).aabb)
        assertM ((∀ i ∈ List.range s.dimension,
          aabb.lowerBound.getD i 0 = nd.aabb.lowerBound.getD i 0 ∧
          aabb.upperBound.getD i 0 = nd.aabb.upperBound.getD i 0))
        validateMetrics left fuel
        validateMetrics right fuel

/-- The free-list count loop of `Tree::validate` (fuel-bounded). -/
def freeCountLoop : Nat → Nat → TreeM Nat
  | _, 0 => EStateM.throw Err.fuel
  | freeIndex, fuel + 1 => do
    if freeIndex = NULL_NODE then pure 0
    else do
      let s ← EStateM.get
      assertM ((freeIndex < s.nodeCapacity))
      let nd ← getN freeIndex
      let c ← freeCountLoop nd.next fuel
      pure (c + 1)

/-- `Tree::validate()` with debug-build (assertions active) semantics. -/
def validate : TreeM Unit := do
  let s ← EStateM.get
  let fuel := s.nodes.length + 1
  validateStructure s.root fuel
  validateMetrics s.root fuel
  let freeCount ← freeCountLoop s.freeList fuel
  let gh ← getHeight
  let ch ← computeHeightRec (← EStateM.get).root fuel
  assertM ((gh = (ch : Int)))
  let s2 ← EStateM.get
  assertM ((s2.nodeCount + freeCount = s2.nodeCapacity))

/-- The leaf-collection loop of `Tree::rebuild` (iterating `i` over
`[0, nodeCapacity)`; live leaves go into `nodeIndices[count++]`, live
internal nodes are freed). -/
def collectLoop : List Nat → List Nat → Nat → TreeM (List Nat × Nat)
  | [], acc, count => pure (acc, count)
  | i :: rest, acc, count => do
    let nd ← getN i
    if nd.height < 0 then collectLoop rest acc count
    else if nd.isLeaf then do
      modifyN i (fun n => { n with parent := NULL_NODE })
      if count < acc.length then collectLoop rest (acc.set count i) (count + 1)
      else EStateM.throw (Err.oob count)
    else do
      freeNode i
      collectLoop rest acc count

/-- Checked read of the local `nodeIndices` vector of `Tree::rebuild`. -/
def idxGet (nodeIndices : List Nat) (i : Nat) : TreeM Nat :=
  match nodeIndices.get? i with
  | some v => pure v
  | none => EStateM.throw (Err.oob i)

/-- The inner `j`-scan of the minimum-cost pair search of `Tree::rebuild`.
`minCost` starts at `std::numeric_limits<double>::max()`, modelled as
`none` (every finite merged surface area is below it). -/
def bestPairInner (nodeIndices : List Nat) (aabbi : AABB) (i : Nat) :
    List Nat → Option (ℚ × Nat × Nat) → TreeM (Option (ℚ × Nat × Nat))
  | [], best => pure best
  | j :: rest, best => do
    let idxj ← idxGet nodeIndices j
    let ndj ← getN idxj
    let merged ← liftA (AABB.merge aabbi ndj.aabb)
    let cost := merged.surfaceArea
    let best' :=
      match best with
      | none => some (cost, i, j)
      | some (mc, bi, bj) => if cost < mc then some (cost, i, j) else some (mc, bi, bj)
    bestPairInner nodeIndices aabbi i rest best'

/-- The outer `i`-scan of the minimum-cost pair search of `Tree::rebuild`. -/
def bestPairOuter (nodeIndices : List Nat) (count : Nat) :
    List Nat → Option (ℚ × Nat × Nat) → TreeM (Option (ℚ × Nat × Nat))
  | [], best => pure best
  | i :: rest, best => do
    let idxi ← idxGet nodeIndices i
    let ndi ← getN idxi
    let best' ← bestPairInner nodeIndices ndi.aabb i
      ((List.range count).drop (i + 1)) best
    bestPairOuter nodeIndices count rest best'

/-- The `while (count > 1)` pairing loop of `Tree::rebuild`.  When no pair
was found (`iMin = -1`), the source indexes the vector at `(unsigned)-1`. -/
def rebuildLoop : List Nat → Nat → Nat → TreeM (List Nat)
  | nodeIndices, count, 0 =>
    if count > 1 then EStateM.throw Err.fuel else pure nodeIndices
  | nodeIndices, count, fuel + 1 => do
    if count ≤ 1 then pure nodeIndices
    else do
      let best ← bestPairOuter nodeIndices count (List.range count) none
      match best with
      | none => EStateM.throw (Err.oob NULL_NODE)
      | some (_, iMin, jMin) => do
        let index1 ← idxGet nodeIndices iMin
        let index2 ← idxGet nodeIndices jMin
        let parent ← allocateNode
        modifyN parent (fun n => { n with left := index1 })
        modifyN parent (fun n => { n with right := index2 })
        let h1 := (← getN index1).height
        let h2 := (← getN index2).height
        modifyN parent (fun n => { n with height := 1 + max h1 h2 })
        let merged ← liftA (AABB.merge (← getN index1).aabb (← getN index2).aabb)
        modifyN parent (fun n => { n with aabb := merged })
        modifyN parent (fun n => { n with parent := NULL_NODE })
        modifyN index1 (fun n => { n with parent := parent })
        modifyN index2 (fun n => { n with parent := parent })
        let last ← idxGet nodeIndices (count - 1)
        if jMin < nodeIndices.length then
          if iMin < nodeIndices.length then
            rebuildLoop ((nodeIndices.set jMin last).set iMin parent) (count - 1) fuel
          else EStateM.throw (Err.oob iMin)
        else EStateM.throw (Err.oob jMin)

/-- `Tree::rebuild()`. -/
def rebuild : TreeM Unit := do
  let s ← EStateM.get
  let nodeIndices0 := List.replicate s.nodeCount 0
  let collected ← collectLoop (List.range s.nodeCapacity) nodeIndices0 0
  let nodeIndices2 ← rebuildLoop collected.1 collected.2 (collected.2 + 1)
  match nodeIndices2.get? 0 with
  | some r => modifyT (fun s2 => { s2 with root := r })
  | none => EStateM.throw (Err.oob 0)
  validate

/-- Run an operation, returning the C++-style outcome: the value or the
escaped exception, together with the tree state afterwards. -/
def runT (m : TreeM α) (s : Tree) : Except Err α × Tree :=
  match m s with
  | EStateM.Result.ok a s' => (Except.ok a, s')
  | EStateM.Result.error e s' => (Except.error e, s')

end Abby

namespace Abby

/-- Follow a pointer field (`next` or `parent`) through the pool until
`NULL_NODE`, with fuel; `none` when the walk leaves the pool or does not
terminate within the fuel. -/
def followChain (f : Node → Nat) (nodes : List Node) : Nat → Nat → Option (List Nat)
  | _, 0 => none
  | head, fuel + 1 =>
    if head = NULL_NODE then some []
    else
      match nodes.get? head with
      | none => none
      | some nd =>
        match followChain f nodes (f nd) fuel with
        | none => none
        | some t => some (head :: t)

/-- The free list of a tree as the list of node indices threaded through
`next` from `freeList`. -/
def freeChain (s : Tree) : Option (List Nat) :=
  followChain Node.next s.nodes s.freeList (s.nodes.length + 1)

/-- The chain of ancestors of a node (the node itself first), threaded
through `parent`. -/
def pathTo (s : Tree) (n : Nat) : Option (List Nat) :=
  followChain Node.parent s.nodes n (s.nodes.length + 1)

/-- The §8 pool invariant: the free list is a terminated chain and
`nodeCount` plus its length equals the capacity. -/
def poolAccounting (s : Tree) : Prop :=
  ∃ ks, freeChain s = some ks ∧ s.nodeCount + ks.length = s.nodeCapacity

/-- The public operations of the tree named by the spec's invariant section
(construction is handled separately by `Reachable.init`; the three `query`
overloads are the spec's §4.7 queries). -/
inductive Op : Type where
  | insert (particle : Nat) (lowerBound upperBound : List ℚ) : Op
  | remove (particle : Nat) : Op
  | clearAll : Op
  | update (particle : Nat) (lowerBound upperBound : List ℚ) (alwaysReinsert : Bool) : Op
  | rebuildOp : Op
  | q1 (particle : Nat) : Op
  | q2 (particle : Nat) (aabb : AABB) : Op
  | qBox (aabb : AABB) : Op

/-- Run one public operation, discarding its value. -/
def applyOp (o : Op) (s : Tree) : EStateM.Result Err Tree Unit :=
  match o with
  | Op.insert p lo hi => insertParticle p lo hi s
  | Op.remove p => removeParticle p s
  | Op.clearAll => removeAll s
  | Op.update p lo hi r => (do let _ ← updateParticle p lo hi r; pure ()) s
  | Op.rebuildOp => rebuild s
  | Op.q1 p => (do let _ ← query1 p; pure ()) s
  | Op.q2 p a => (do let _ ← query2 p a; pure ()) s
  | Op.qBox a => (do let _ ← queryAABB a; pure ()) s

/-- States reachable by a sequence of valid public operations: a successful
construction followed by operations that complete normally (an operation
that throws is a failed, client-error call, excluded by the claim's
"valid"). -/
inductive Reachable : Tree → Prop where
  | init (dimension' : Nat) (skinThickness' : ℚ) (nParticles : Nat)
      (touchIsOverlap' : Bool) (s : Tree) :
      Tree.make dimension' skinThickness' nParticles touchIsOverlap' = Except.ok s →
      Reachable s
  | step (o : Op) (s s' : Tree) (u : Unit) :
      Reachable s → applyOp o s = EStateM.Result.ok u s' → Reachable s'

/-- Membership of the free chain, heights `-1` on it, the converse (every
free slot is on the chain), and the §8 accounting equation. -/
def ChainInv (s : Tree) (ks : List Nat) : Prop :=
  freeChain s = some ks ∧
  (∀ k ∈ ks, ∃ nd, s.nodes.get? k = some nd ∧ nd.height = -1) ∧
  (∀ k nd, s.nodes.get? k = some nd → nd.height < 0 → k ∈ ks) ∧
  s.nodeCount + ks.length = s.nodeCapacity

/-- Pool-shape facts: the node list realises the capacity, the capacity is a
representable `unsigned int` count, and the dimension is at least 2. -/
def Dims (s : Tree) : Prop :=
  s.nodes.length = s.nodeCapacity ∧ s.nodeCapacity < 4294967296 ∧ 2 ≤ s.dimension

/-- Leaf shape: for live nodes, `left = NULL_NODE ↔ right = NULL_NODE`, and
live leaves have height 0. -/
def LeafOk (s : Tree) : Prop :=
  ∀ n nd, s.nodes.get? n = some nd → 0 ≤ nd.height →
    (nd.left = NULL_NODE ↔ nd.right = NULL_NODE) ∧
    (nd.left = NULL_NODE → nd.height = 0)

/-- Children of live internal nodes: both live, reciprocal parent pointers,
distinct. -/
def ChildOk (s : Tree) : Prop :=
  ∀ n nd, s.nodes.get? n = some nd → 0 ≤ nd.height → nd.left ≠ NULL_NODE →
    ∃ ndl ndr, s.nodes.get? nd.left = some ndl ∧ s.nodes.get? nd.right = some ndr ∧
      0 ≤ ndl.height ∧ 0 ≤ ndr.height ∧ ndl.parent = n ∧ ndr.parent = n ∧
      nd.left ≠ nd.right

/-- Heights of live internal nodes off the exempt list `X` satisfy the
recurrence `height = 1 + max (height left) (height right)`. -/
def HeightsOk (s : Tree) (X : List Nat) : Prop :=
  ∀ n nd ndl ndr, s.nodes.get? n = some nd → 0 ≤ nd.height → nd.left ≠ NULL_NODE →
    s.nodes.get? nd.left = some ndl → s.nodes.get? nd.right = some ndr → n ∉ X →
    nd.height = 1 + max ndl.height ndr.height

/-- Parents of live nodes off the exempt list `D`: live, and the node is one
of the parent's children. -/
def ParentOk (s : Tree) (D : List Nat) : Prop :=
  ∀ n nd, s.nodes.get? n = some nd → 0 ≤ nd.height → nd.parent ≠ NULL_NODE → n ∉ D →
    ∃ ndp, s.nodes.get? nd.parent = some ndp ∧ 0 ≤ ndp.height ∧
      (ndp.left = n ∨ ndp.right = n)

/-- The root, when present, is live with no parent. -/
def RootOk (s : Tree) : Prop :=
  s.root = NULL_NODE ∨
    ∃ nd, s.nodes.get? s.root = some nd ∧ 0 ≤ nd.height ∧ nd.parent = NULL_NODE

/-- No live node references `x` as a child, and `x` is not the root. -/
def Unref (s : Tree) (x : Nat) : Prop :=
  (∀ m ndm, s.nodes.get? m = some ndm → 0 ≤ ndm.height → ndm.left ≠ x ∧ ndm.right ≠ x) ∧
  s.root ≠ x

/-- The particle map points at live leaves, has unique keys, and is
injective on node indices. -/
def PmInv (s : Tree) : Prop :=
  (∀ p x, (p, x) ∈ s.particleMap →
    ∃ nd, s.nodes.get? x = some nd ∧ nd.height = 0 ∧ nd.left = NULL_NODE) ∧
  (s.particleMap.map Prod.fst).Nodup ∧
  (∀ p q x, (p, x) ∈ s.particleMap → (q, x) ∈ s.particleMap → p = q)

/-- The structural core of the invariant, with a list `D` of detached nodes
exempt from the parent clause (each of them a live, unreferenced leaf) and a
list `X` of nodes whose heights may be stale. -/
def Core (s : Tree) (D X : List Nat) : Prop :=
  Dims s ∧ (∃ ks, ChainInv s ks) ∧ LeafOk s ∧ ChildOk s ∧ HeightsOk s X ∧
  ParentOk s D ∧ RootOk s ∧
  (∀ d ∈ D, Unref s d ∧ ∃ nd, s.nodes.get? d = some nd ∧ nd.height = 0 ∧
    nd.left = NULL_NODE)

/-- The inductive invariant carried through every public operation: the
structural core with no detached nodes and no stale heights, together with
the particle-map facts. -/
def Inv (s : Tree) : Prop :=
  Core s [] [] ∧ PmInv s

/-- A fresh 2-dimensional tree with `skinThickness = 0` and capacity 4,
written out literally (it is the value of `Tree.make 2 0 4 true`). -/
def fresh2d4 : Tree :=
  { root := NULL_NODE
    nodes := [{ next := 1, height := -1 }, { next := 2, height := -1 },
              { next := 3, height := -1 }, { next := NULL_NODE, height := -1 }]
    nodeCount := 0, nodeCapacity := 4, freeList := 0, dimension := 2,
    skinThickness := 0, particleMap := [], touchIsOverlap := true }

/-- A well-formed AABB value with the given bounds and consistent cached
fields (what the spec's two-argument constructor is meant to produce),
used as query and containment inputs. -/
def boxAABB (lo hi : List ℚ) : AABB :=
  let base : AABB := { lowerBound := lo, upperBound := hi }
  { base with surfaceArea := base.computeSurfaceArea, centre := base.computeCentre }

/-- `fresh2d4` after inserting particle `7` with bounds `(0,0)–(1,1)`
(written out literally; the insertion is a root-case `insertLeaf`). -/
def tOne : Tree :=
  { root := 0
    nodes := [
      { aabb := { lowerBound := [0, 0], upperBound := [1, 1],
                  centre := [1/2, 1/2], surfaceArea := 4 },
        parent := NULL_NODE, next := 1, left := NULL_NODE, right := NULL_NODE,
        height := 0, particle := 7 },
      { next := 2, height := -1 }, { next := 3, height := -1 },
      { next := NULL_NODE, height := -1 }]
    nodeCount := 1, nodeCapacity := 4, freeList := 1, dimension := 2,
    skinThickness := 0, particleMap := [(7, 0)], touchIsOverlap := true }

/-- `fresh2d4` after inserting particle `1` at `(0,0)–(1,1)` and particle
`2` at `(3,0)–(4,1)` (written out literally): node 2 is the root, an
internal node with left child 0 and right child 1. -/
def c6b : Tree :=
  { root := 2
    nodes := [
      { aabb := { lowerBound := [0, 0], upperBound := [1, 1],
                  centre := [1/2, 1/2], surfaceArea := 4 },
        parent := 2, next := 1, left := NULL_NODE, right := NULL_NODE,
        height := 0, particle := 1 },
      { aabb := { lowerBound := [3, 0], upperBound := [4, 1],
                  centre := [7/2, 1/2], surfaceArea := 4 },
        parent := 2, next := 2, left := NULL_NODE, right := NULL_NODE,
        height := 0, particle := 2 },
      { aabb := { lowerBound := [0, 0], upperBound := [4, 1],
                  centre := [2, 1/2], surfaceArea := 10 },
        parent := NULL_NODE, next := 3, left := 0, right := 1,
        height := 1, particle := 0 },
      { next := NULL_NODE, height := -1 }]
    nodeCount := 3, nodeCapacity := 4, freeList := 3, dimension := 2,
    skinThickness := 0, particleMap := [(1, 0), (2, 1)], touchIsOverlap := true }

/-- A leaf box centred between the two leaves of `c6b`: both SAH descent
costs are equal. -/
def c6leaf : AABB := boxAABB [3/2, 0] [5/2, 1]

/-- `fresh2d4` after inserting particle `5` and then particle `4294967295`,
both at `(0,0)–(1,1)` (written out literally): two overlapping leaves under
root 2. -/
def tMax2 : Tree :=
  { root := 2
    nodes := [
      { aabb := { lowerBound := [0, 0], upperBound := [1, 1],
                  centre := [1/2, 1/2], surfaceArea := 4 },
        parent := 2, next := 1, left := NULL_NODE, right := NULL_NODE,
        height := 0, particle := 5 },
      { aabb := { lowerBound := [0, 0], upperBound := [1, 1],
                  centre := [1/2, 1/2], surfaceArea := 4 },
        parent := 2, next := 2, left := NULL_NODE, right := NULL_NODE,
        height := 0, particle := 4294967295 },
      { aabb := { lowerBound := [0, 0], upperBound := [1, 1],
                  centre := [1/2, 1/2], surfaceArea := 4 },
        parent := NULL_NODE, next := 3, left := 0, right := 1,
        height := 1, particle := 0 },
      { next := NULL_NODE, height := -1 }]
    nodeCount := 3, nodeCapacity := 4, freeList := 3, dimension := 2,
    skinThickness := 0, particleMap := [(5, 0), (4294967295, 1)], touchIsOverlap := true }

end Abby

deriving instance DecidableEq for Except

namespace Abby

/-! ## Run lemmas for the state monad -/

theorem run_bind (x : TreeM α) (f : α → TreeM β) (s : Tree) :
    (x >>= f) s = match x s with
      | EStateM.Result.ok a s' => f a s'
      | EStateM.Result.error e s' => EStateM.Result.error e s' := by
  cases h : x s <;> simp [Bind.bind, EStateM.bind, h]

theorem run_pure (a : α) (s : Tree) :
    (pure a : TreeM α) s = EStateM.Result.ok a s := rfl

theorem run_get (s : Tree) :
    (EStateM.get : TreeM Tree) s = EStateM.Result.ok s s := rfl

theorem run_set (t s : Tree) :
    (EStateM.set t : TreeM Unit) s = EStateM.Result.ok () t := rfl

theorem run_throw (e : Err) (s : Tree) :
    (EStateM.throw e : TreeM α) s = EStateM.Result.error e s := rfl

theorem run_map (g : α → β) (x : TreeM α) (s : Tree) :
    (g <$> x) s = match x s with
      | EStateM.Result.ok a s' => EStateM.Result.ok (g a) s'
      | EStateM.Result.error e s' => EStateM.Result.error e s' := by
  cases h : x s <;> simp [Functor.map, EStateM.map, h]

end Abby

namespace Abby

theorem growPool_ok (s : Tree) (s2 : Tree) (u : Unit)
    (h : growPool s = EStateM.Result.ok u s2) :
    s.nodeCount = s.nodeCapacity ∧ (s.nodeCapacity * 2) % 4294967296 ≠ 0 ∧
    s2 = growState s := by
  revert h
  simp only [growPool, run_bind, run_get, run_throw, assertM]
  by_cases hc : s.nodeCount = s.nodeCapacity
  · rw [if_pos hc]
    simp only [run_pure]
    by_cases hz : (s.nodeCapacity * 2) % 4294967296 = 0
    · rw [if_pos hz]
      simp only [run_throw]
      intro h; cases h
    · rw [if_neg hz]
      simp only [run_set]
      intro h; cases h; exact ⟨hc, hz, rfl⟩
  · rw [if_neg hc]
    simp only [run_throw]
    intro h; cases h

theorem popFree_ok (s2 : Tree) (n : Nat) (s1 : Tree)
    (h : popFree s2 = EStateM.Result.ok n s1) :
    ∃ nd, s2.nodes.get? s2.freeList = some nd ∧ n = s2.freeList ∧
      s1 = { s2 with freeList := nd.next,
                     nodes := s2.nodes.set s2.freeList
                       { nd with parent := NULL_NODE, left := NULL_NODE,
                                 right := NULL_NODE, height := 0,
                                 aabb := nd.aabb.setDimension s2.dimension },
                     nodeCount := s2.nodeCount + 1 } := by
  revert h
  simp only [popFree, run_bind, run_get, run_set, run_pure, getN, modifyN, modifyT]
  cases hg : s2.nodes.get? s2.freeList with
  | none => intro h; cases h
  | some nd =>
    have hg2 : ({ s2 with freeList := nd.next } : Tree).nodes.get? s2.freeList = some nd := hg
    simp only [run_pure, hg2]
    intro h
    cases h
    exact ⟨nd, rfl, rfl, rfl⟩

theorem allocateNode_ok (s : Tree) (n : Nat) (s1 : Tree)
    (h : allocateNode s = EStateM.Result.ok n s1) :
    ∃ s2 nd,
      ((s.freeList ≠ NULL_NODE ∧ s2 = s) ∨
       (s.freeList = NULL_NODE ∧ s.nodeCount = s.nodeCapacity ∧
        (s.nodeCapacity * 2) % 4294967296 ≠ 0 ∧ s2 = growState s)) ∧
      s2.nodes.get? s2.freeList = some nd ∧ n = s2.freeList ∧
      s1 = { s2 with freeList := nd.next,
                     nodes := s2.nodes.set s2.freeList
                       { nd with parent := NULL_NODE, left := NULL_NODE,
                                 right := NULL_NODE, height := 0,
                                 aabb := nd.aabb.setDimension s2.dimension },
                     nodeCount := s2.nodeCount + 1 } := by
  revert h
  simp only [allocateNode, run_bind, run_get, run_pure]
  split
  · next hf =>
    intro h
    rw [run_bind] at h
    cases hgp : growPool s with
    | error e se => rw [hgp] at h; cases h
    | ok u s2 =>
      rw [hgp] at h
      obtain ⟨hc, hz, hs2⟩ := growPool_ok s s2 u hgp
      obtain ⟨nd, h1, h2, h3⟩ := popFree_ok s2 n s1 h
      exact ⟨s2, nd, Or.inr ⟨hf, hc, hz, hs2⟩, h1, h2, h3⟩
  · next hf =>
    intro h
    rw [run_bind, run_pure] at h
    obtain ⟨nd, h1, h2, h3⟩ := popFree_ok s n s1 h
    exact ⟨s, nd, Or.inl ⟨hf, rfl⟩, h1, h2, h3⟩

end Abby

namespace Abby

theorem resizeQ_length (l : List ℚ) (n : Nat) : (resizeQ l n).length = n := by
  simp [resizeQ]

theorem insBoundsLoop_first_violation (node : Nat) (lo hi : List ℚ) :
    ∀ (l : List Nat) (s : Tree) (nd : Node),
      s.nodes.get? node = some nd →
      (∃ i ∈ l, hi.getD i 0 < lo.getD i 0) →
      (∀ i ∈ l, i < lo.length ∧ i < hi.length ∧
        i < nd.aabb.lowerBound.length ∧ i < nd.aabb.upperBound.length) →
      ∃ s', insBoundsLoop node lo hi l s = EStateM.Result.error Err.invertedBounds s' ∧
        s'.nodeCount = s.nodeCount
  | [], s, nd, hnd, hviol, hlen => by
    obtain ⟨i, hi, _⟩ := hviol
    cases hi
  | i :: rest, s, nd, hnd, hviol, hlen => by
    obtain ⟨hl1, hl2, hl3, hl4⟩ := hlen i (List.mem_cons_self i rest)
    have hlo : lo.get? i = some (lo.getD i 0) := by
      rw [List.getD_eq_get?]
      cases hg : lo.get? i with
      | none => exact absurd (List.get?_eq_none.1 hg) (Nat.not_le.2 hl1)
      | some x => rfl
    have hhi : hi.get? i = some (hi.getD i 0) := by
      rw [List.getD_eq_get?]
      cases hg : hi.get? i with
      | none => exact absurd (List.get?_eq_none.1 hg) (Nat.not_le.2 hl2)
      | some x => rfl
    by_cases hv : hi.getD i 0 < lo.getD i 0
    · refine ⟨s, ?_, rfl⟩
      simp only [insBoundsLoop, getQ, run_bind, run_throw, run_pure, hlo, hhi, gt_iff_lt]
      rw [if_pos hv]
      rfl
    · have hviol' : ∃ j ∈ rest, hi.getD j 0 < lo.getD j 0 := by
        obtain ⟨j, hj, hjv⟩ := hviol
        cases List.mem_cons.1 hj with
        | inl hji => exact absurd (hji ▸ hjv) hv
        | inr hjr => exact ⟨j, hjr, hjv⟩
      have hlt : node < s.nodes.length := by
        by_contra hge
        rw [List.get?_eq_none.2 (Nat.le_of_not_lt hge)] at hnd
        cases hnd
      set nd' : Node :=
        { nd with aabb := { nd.aabb with
            lowerBound := nd.aabb.lowerBound.set i (lo.getD i 0),
            upperBound := nd.aabb.upperBound.set i (hi.getD i 0) } } with hnd'
      have hnd2 : (({ s with nodes := s.nodes.set node nd' } : Tree)).nodes.get? node
          = some nd' := by
        simp only [List.get?_set_eq_of_lt _ hlt]
      obtain ⟨s', hrun, hcnt⟩ := insBoundsLoop_first_violation node lo hi rest
        { s with nodes := s.nodes.set node nd' } nd' hnd2 hviol'
        (by
          intro j hj
          obtain ⟨a, b, c, d⟩ := hlen j (List.mem_cons_of_mem i hj)
          refine ⟨a, b, ?_, ?_⟩
          · simpa [hnd', List.length_set] using c
          · simpa [hnd', List.length_set] using d)
      refine ⟨s', ?_, by simpa using hcnt⟩
      simp only [insBoundsLoop, getQ, run_bind, run_throw, run_pure, hlo, hhi, gt_iff_lt]
      rw [if_neg hv]
      simp only [run_bind, getN, run_get, hnd, run_pure, modifyN]
      rw [if_pos ⟨hl3, hl4⟩]
      simp only [run_bind, run_get, run_set, run_pure, hnd]
      exact hrun

end Abby

namespace Abby

/-- C1 (amended): `insertParticle` leaves the tree unchanged on the
duplicate-id and dimension-mismatch errors, but the inverted-bounds error is
raised only after `allocateNode` has committed: the reported state has
`nodeCount` incremented (the allocated node is leaked). -/
theorem c1_amended_insert_error_state (s : Tree) (p : Nat) (lo hi : List ℚ) :
    (pmCount s.particleMap p ≠ 0 →
      runT (insertParticle p lo hi) s = (Except.error Err.duplicateParticle, s)) ∧
    (pmCount s.particleMap p = 0 → lo.length ≠ s.dimension ∨ hi.length ≠ s.dimension →
      runT (insertParticle p lo hi) s = (Except.error Err.dimMismatch, s)) ∧
    (pmCount s.particleMap p = 0 → lo.length = s.dimension → hi.length = s.dimension →
      (∃ i, i < s.dimension ∧ hi.getD i 0 < lo.getD i 0) →
      ∀ n s1, allocateNode s = EStateM.Result.ok n s1 →
      ∃ s', runT (insertParticle p lo hi) s = (Except.error Err.invertedBounds, s') ∧
        s'.nodeCount = s.nodeCount + 1) := by
  refine ⟨?_, ?_, ?_⟩
  · intro hdup
    simp only [runT, insertParticle, run_bind, run_get, run_throw]
    rw [if_pos hdup]
    rfl
  · intro hdup hdim
    simp only [runT, insertParticle, run_bind, run_get, run_throw]
    rw [if_neg (by simpa using hdup), if_pos hdim]
    rfl
  · intro hdup hlo hhi hviol n s1 halloc
    obtain ⟨s2, nd, hcase, hget, hn, hs1⟩ := allocateNode_ok s n s1 halloc
    have hd2 : s2.dimension = s.dimension := by
      rcases hcase with ⟨_, rfl⟩ | ⟨_, _, _, rfl⟩
      · rfl
      · rfl
    have hc2 : s2.nodeCount = s.nodeCount := by
      rcases hcase with ⟨_, rfl⟩ | ⟨_, _, _, rfl⟩
      · rfl
      · rfl
    have hlt : s2.freeList < s2.nodes.length := by
      by_contra hge
      rw [List.get?_eq_none.2 (Nat.le_of_not_lt hge)] at hget
      cases hget
    have hnd1 : s1.nodes.get? n = some
        { nd with parent := NULL_NODE, left := NULL_NODE, right := NULL_NODE,
                  height := 0, aabb := nd.aabb.setDimension s2.dimension } := by
      rw [hs1, hn]
      exact List.get?_set_eq_of_lt _ hlt
    obtain ⟨s', hrun, hcnt⟩ := insBoundsLoop_first_violation n lo hi
      (List.range s.dimension) s1 _ hnd1
      (by
        obtain ⟨i, hi1, hi2⟩ := hviol
        exact ⟨i, List.mem_range.2 hi1, hi2⟩)
      (by
        intro i hi0
        have hi1 := List.mem_range.1 hi0
        refine ⟨hlo ▸ hi1, hhi ▸ hi1, ?_, ?_⟩
        · simpa [AABB.setDimension, resizeQ_length, hd2] using hi1
        · simpa [AABB.setDimension, resizeQ_length, hd2] using hi1)
    have hcnt1 : s1.nodeCount = s.nodeCount + 1 := by
      rw [hs1]; simpa using hc2
    refine ⟨s', ?_, by rw [hcnt, hcnt1]⟩
    simp only [runT, insertParticle, run_bind, run_get, run_throw]
    rw [if_neg (by simpa using hdup), if_neg (by simp [hlo, hhi])]
    simp only [run_bind, halloc, hrun]

end Abby

namespace Abby

/-- C10: `query(particle, aabb)` reads `nodes[node].aabb` before comparing
the popped index against `NULL_NODE`; on a tree with `root = NULL_NODE`
(the empty tree) the pool is indexed at `0xffffffff`, outside its capacity,
and the model reports the out-of-bounds access with the state unchanged. -/
theorem c10_null_pop_oob_read (s : Tree) (particle : Nat) (aabb : AABB)
    (hroot : s.root = NULL_NODE) (hlen : s.nodes.length ≤ 4294967295) :
    runT (query2 particle aabb) s = (Except.error (Err.oob 4294967295), s) := by
  have hget : s.nodes.get? (4294967295 : Nat) = none := List.get?_eq_none.2 hlen
  simp only [runT, query2, queryLoop, getN, NULL_NODE, run_bind, run_get, run_throw,
    hroot, hget]

/-- C2 (amended): `getAABB` with an id not in the particle map reports no
error; `operator[]` default-inserts the id with node index `0` into the map
(mutating the tree) and the call returns the AABB stored in pool slot `0`. -/
theorem c2_amended_getAABB_unknown (s : Tree) (particle : Nat) (nd : Node)
    (habs : s.particleMap.lookup particle = none) (h0 : s.nodes.get? 0 = some nd) :
    runT (getAABB particle) s =
      (Except.ok nd.aabb, { s with particleMap := s.particleMap ++ [(particle, 0)] }) := by
  simp only [runT, getAABB, getN, run_bind, run_get, run_set, run_pure, habs, h0]

/-- C4 (amended): `updateParticle` reports the dimensionality error only
when BOTH bounds vectors have length different from the tree dimension
(the source checks with `&&`); in that case the state is unchanged. -/
theorem c4_amended_dimension_check (s : Tree) (p : Nat) (lo hi : List ℚ) (r : Bool)
    (h1 : lo.length ≠ s.dimension) (h2 : hi.length ≠ s.dimension) :
    runT (updateParticle p lo hi r) s = (Except.error Err.dimMismatch, s) := by
  simp only [runT, updateParticle, run_bind, run_get, run_throw]
  rw [if_pos ⟨h1, h2⟩]
  rfl

end Abby

namespace Abby

/-- C6 (amended): at an internal node where the SAH stop condition fails
and the descend-left cost equals the descend-right cost, `insertLeaf`'s
descent continues into the RIGHT child (`if (costLeft < costRight)` is
false on ties). -/
theorem c6_amended_tie_goes_right (s : Tree) (leafAABB : AABB) (index fuel : Nat)
    (nd ndL ndR : Node) (combined mL mR : AABB) (costL costR : ℚ)
    (hnd : s.nodes.get? index = some nd) (hleaf : nd.isLeaf = false)
    (hL : s.nodes.get? nd.left = some ndL) (hR : s.nodes.get? nd.right = some ndR)
    (hm : AABB.merge nd.aabb leafAABB = some combined)
    (hmL : AABB.merge leafAABB ndL.aabb = some mL)
    (hmR : AABB.merge leafAABB ndR.aabb = some mR)
    (hCL : costL = if ndL.isLeaf then
        mL.surfaceArea + 2 * (combined.surfaceArea - nd.aabb.surfaceArea)
      else (mL.surfaceArea - ndL.aabb.surfaceArea) +
        2 * (combined.surfaceArea - nd.aabb.surfaceArea))
    (hCR : costR = if ndR.isLeaf then
        mR.surfaceArea + 2 * (combined.surfaceArea - nd.aabb.surfaceArea)
      else (mR.surfaceArea - ndR.aabb.surfaceArea) +
        2 * (combined.surfaceArea - nd.aabb.surfaceArea))
    (hstop : ¬ (2 * combined.surfaceArea < costL ∧ 2 * combined.surfaceArea < costR))
    (htie : costL = costR) :
    sahDescend leafAABB index (fuel + 1) s = sahDescend leafAABB nd.right fuel s := by
  simp only [sahDescend, run_bind, run_get, run_pure, getN, liftA, hnd, hleaf, hm, hL, hR,
    hmL, hmR, Bool.false_eq_true, if_false]
  cases hcl : ndL.isLeaf <;> cases hcr : ndR.isLeaf <;>
    simp only [hcl, hcr, Bool.false_eq_true, if_true, if_false, ite_true, ite_false,
      run_bind, run_get, run_pure, hR, hmR] <;>
    rw [hcl] at hCL <;> rw [hcr] at hCR <;>
    simp only [Bool.false_eq_true, if_true, if_false, ite_true, ite_false] at hCL hCR <;>
    rw [← hCL, ← hCR, if_neg hstop, if_neg (htie ▸ lt_irrefl costL)]

end Abby

namespace Abby

theorem queryLoop_mem (particle : Nat) (aabb : AABB) :
    ∀ (fuel : Nat) (stack acc : List Nat) (s : Tree) (r : List Nat) (s' : Tree),
      queryLoop particle aabb fuel stack acc s = EStateM.Result.ok r s' →
      ∀ x ∈ r, x ∈ acc ∨ x ≠ particle
  | 0, stack, acc, s, r, s', h => by
    simp only [queryLoop, run_throw] at h
    cases h
  | fuel + 1, [], acc, s, r, s', h => by
    simp only [queryLoop, run_pure] at h
    cases h
    exact fun x hx => Or.inl hx
  | fuel + 1, node :: stack, acc, s, r, s', h => by
    simp only [queryLoop, run_bind, run_get, run_pure, getN, liftA] at h
    cases hg : s.nodes.get? node with
    | none => rw [hg] at h; cases h
    | some nd =>
      rw [hg] at h
      simp only [run_pure] at h
      by_cases hnull : node = NULL_NODE
      · rw [if_pos hnull] at h
        exact queryLoop_mem particle aabb fuel stack acc s r s' h
      · rw [if_neg hnull] at h
        simp only [run_bind, run_get, run_pure] at h
        cases hov : aabb.overlaps nd.aabb s.touchIsOverlap with
        | none =>
          rw [hov] at h
          simp only [run_throw] at h
          cases h
        | some ov =>
          rw [hov] at h
          simp only [run_pure] at h
          cases ov with
          | false =>
            simp only [Bool.false_eq_true, if_false] at h
            exact queryLoop_mem particle aabb fuel stack acc s r s' h
          | true =>
            simp only [if_true] at h
            cases hlf : nd.isLeaf with
            | false =>
              rw [hlf] at h
              simp only [Bool.false_eq_true, if_false] at h
              exact queryLoop_mem particle aabb fuel (nd.right :: nd.left :: stack) acc s r s' h
            | true =>
              rw [hlf] at h
              simp only [if_true] at h
              by_cases hp : nd.particle ≠ particle
              · rw [if_pos hp] at h
                intro x hx
                cases queryLoop_mem particle aabb fuel stack (acc ++ [nd.particle]) s r s' h x hx with
                | inl hin =>
                  cases List.mem_append.1 hin with
                  | inl hacc => exact Or.inl hacc
                  | inr hone =>
                    cases List.mem_singleton.1 hone
                    exact Or.inr hp
                | inr hne => exact Or.inr hne
              · rw [if_neg hp] at h
                exact queryLoop_mem particle aabb fuel stack acc s r s' h

/-- C9: the AABB-only `query` overload on a non-empty tree delegates to
the two-argument overload with excluded id `0xffffffff = 4294967295`, and
every particle list returned by that query excludes the id `4294967295` —
a particle registered under that id is never reported. -/
theorem c9_query_excludes_max_id :
    (∀ (s : Tree) (aabb : AABB), s.particleMap ≠ [] →
      runT (queryAABB aabb) s = runT (query2 4294967295 aabb) s) ∧
    (∀ (s : Tree) (aabb : AABB) (r : List Nat) (s' : Tree),
      runT (query2 4294967295 aabb) s = (Except.ok r, s') → 4294967295 ∉ r) := by
  constructor
  · intro s aabb hpm
    simp only [runT, queryAABB, run_bind, run_get]
    rw [if_neg (by simpa [List.length_eq_zero] using hpm)]
  · intro s aabb r s' h
    have h2 : query2 4294967295 aabb s = EStateM.Result.ok r s' := by
      revert h
      simp only [runT]
      cases hq : query2 4294967295 aabb s with
      | ok a t => intro h; cases h; rfl
      | error e t => intro h; cases h
    rw [query2, run_bind, run_get] at h2
    intro hmem
    cases queryLoop_mem 4294967295 aabb (2 * s.nodes.length + 2) [s.root] [] s r s' h2
        4294967295 hmem with
    | inl hacc => cases hacc
    | inr hne => exact hne rfl

end Abby

namespace Abby

deriving instance DecidableEq for EStateM.Result

unseal Rat.mul Rat.add Rat.sub Rat.inv in
/-- C1 (counterexample): on a fresh tree, `insertParticle` with inverted
bounds reports the client-input error `invertedBounds`, yet `nodeCount` and
the free list are changed by the call — the claim's "state unchanged" fails. -/
theorem c1_counterexample :
    (runT (insertParticle 0 [1, 0] [0, 1]) fresh2d4).1 = Except.error Err.invertedBounds ∧
    fresh2d4.nodeCount = 0 ∧
    (runT (insertParticle 0 [1, 0] [0, 1]) fresh2d4).2.nodeCount = 1 ∧
    fresh2d4.freeList = 0 ∧
    (runT (insertParticle 0 [1, 0] [0, 1]) fresh2d4).2.freeList = 1 := by decide

unseal Rat.mul Rat.add Rat.sub Rat.inv in
/-- C1 witness: the amended theorem applied at concrete inputs. -/
theorem c1_amended_witness :
    runT (insertParticle 7 [0, 0] [1, 1]) tOne = (Except.error Err.duplicateParticle, tOne) ∧
    (∃ s', runT (insertParticle 0 [1, 0] [0, 1]) fresh2d4 =
        (Except.error Err.invertedBounds, s') ∧ s'.nodeCount = fresh2d4.nodeCount + 1) := by
  refine ⟨(c1_amended_insert_error_state tOne 7 [0, 0] [1, 1]).1 (by decide), ?_⟩
  exact (c1_amended_insert_error_state fresh2d4 0 [1, 0] [0, 1]).2.2 (by decide) (by decide)
    (by decide) ⟨0, by decide, by decide⟩ 0
    { root := NULL_NODE
      nodes := [{ aabb := { lowerBound := [0, 0], upperBound := [0, 0], centre := [],
                            surfaceArea := 0 },
                  parent := NULL_NODE, next := 1, left := NULL_NODE, right := NULL_NODE,
                  height := 0, particle := 0 },
                { next := 2, height := -1 }, { next := 3, height := -1 },
                { next := NULL_NODE, height := -1 }]
      nodeCount := 1, nodeCapacity := 4, freeList := 1, dimension := 2,
      skinThickness := 0, particleMap := [], touchIsOverlap := true }
    (by decide)

unseal Rat.mul Rat.add Rat.sub Rat.inv in
/-- C2 (counterexample): `getAABB 99` on a fresh tree (99 unregistered)
returns normally (no UnknownParticle error) and mutates the particle map. -/
theorem c2_counterexample :
    (runT (getAABB 99) fresh2d4).1 = Except.ok ({} : AABB) ∧
    fresh2d4.particleMap = [] ∧
    (runT (getAABB 99) fresh2d4).2.particleMap = [(99, 0)] := by decide

/-- C2 witness: the amended theorem applied at concrete inputs. -/
theorem c2_amended_witness :
    runT (getAABB 99) fresh2d4 =
      (Except.ok ({ next := 1, height := -1 } : Node).aabb,
       { fresh2d4 with particleMap := fresh2d4.particleMap ++ [(99, 0)] }) :=
  c2_amended_getAABB_unknown fresh2d4 99 { next := 1, height := -1 } (by decide) (by decide)

unseal Rat.mul Rat.add Rat.sub Rat.inv in
/-- C3 (code bug, evaluation): with particle 7 stored fattened at
`(0,0)–(1,1)` and new bounds `(1/4,1/4)–(3/4,3/4)` (contained in the
stored box, so the claim demands `false`), `updateParticle` instead fails
an assertion: the two-argument AABB constructor never stores its arguments,
so `contains` is called on a 0-dimensional AABB. -/
theorem c3_code_bug_eval :
    tOne.particleMap.lookup 7 = some 0 ∧
    (tOne.nodes.getD 0 {}).aabb.contains (boxAABB [1/4, 1/4] [3/4, 3/4]) = some true ∧
    AABB.fromBounds [1/4, 1/4] [3/4, 3/4] = Except.ok ({} : AABB) ∧
    (runT (updateParticle 7 [1/4, 1/4] [3/4, 3/4] false) tOne).1 =
      Except.error Err.assertFail := by decide

unseal Rat.mul Rat.add Rat.sub Rat.inv in
/-- C4 (counterexample): with `upper` of length 3 on a 2-dimensional tree
(`lower` of matching length 2), `updateParticle` does not report
InvalidDimension — the `&&` check passes and the call fails later with the
unknown-particle error instead. -/
theorem c4_counterexample :
    ([1, 1, 1] : List ℚ).length ≠ fresh2d4.dimension ∧
    (runT (updateParticle 1 [0, 0] [1, 1, 1] false) fresh2d4).1 =
      Except.error Err.invalidParticle ∧
    Err.invalidParticle ≠ Err.dimMismatch := by decide

/-- C4 witness: the amended theorem applied at concrete inputs. -/
theorem c4_amended_witness :
    runT (updateParticle 1 [0] [0] false) fresh2d4 =
      (Except.error Err.dimMismatch, fresh2d4) :=
  c4_amended_dimension_check fresh2d4 1 [0] [0] false (by decide) (by decide)

unseal Rat.mul Rat.add Rat.sub Rat.inv in
/-- C5 (code bug, evaluation): constructing an AABB from the inverted
bounds `lower = [1,1]`, `upper = [0,0]` does NOT fail: the constructor
validates its own (empty) members instead of the arguments and returns the
default (empty) AABB. -/
theorem c5_code_bug_eval :
    AABB.fromBounds [1, 1] [0, 0] = Except.ok ({} : AABB) := by decide

unseal Rat.mul Rat.add Rat.sub Rat.inv in
/-- C8 (code bug, evaluation): `rebuild` on the empty tree (a valid state)
reads `nodeIndices[0]` from a zero-length vector — an out-of-bounds access —
instead of leaving the tree valid. -/
theorem c8_code_bug_eval :
    fresh2d4.particleMap = [] ∧ fresh2d4.nodeCount = 0 ∧
    runT rebuild fresh2d4 = (Except.error (Err.oob 0), fresh2d4) := by decide

/-- C10 witness: the theorem applied to the fresh (empty) tree. -/
theorem c10_witness :
    fresh2d4.root = NULL_NODE ∧
    runT (query2 5 (boxAABB [0, 0] [1, 1])) fresh2d4 =
      (Except.error (Err.oob 4294967295), fresh2d4) :=
  ⟨by decide, c10_null_pop_oob_read fresh2d4 5 (boxAABB [0, 0] [1, 1]) (by decide) (by decide)⟩

end Abby

namespace Abby

unseal Rat.mul Rat.add Rat.sub Rat.inv in
/-- C6 (counterexample): at the root of `c6b` (an internal node, children
0 and 1) the two descend costs for `c6leaf` are equal and the stop
condition fails, yet the SAH descent returns node 1 — the RIGHT child —
whereas the claim requires the left child (node 0). -/
theorem c6_counterexample :
    c6b.root = 2 ∧
    (c6b.nodes.getD 2 {}).isLeaf = false ∧
    (c6b.nodes.getD 2 {}).left = 0 ∧ (c6b.nodes.getD 2 {}).right = 1 ∧
    (((AABB.merge c6leaf (c6b.nodes.getD 0 {}).aabb).getD {}).surfaceArea +
        2 * (((AABB.merge (c6b.nodes.getD 2 {}).aabb c6leaf).getD {}).surfaceArea -
          (c6b.nodes.getD 2 {}).aabb.surfaceArea) =
      ((AABB.merge c6leaf (c6b.nodes.getD 1 {}).aabb).getD {}).surfaceArea +
        2 * (((AABB.merge (c6b.nodes.getD 2 {}).aabb c6leaf).getD {}).surfaceArea -
          (c6b.nodes.getD 2 {}).aabb.surfaceArea)) ∧
    ¬ (2 * ((AABB.merge (c6b.nodes.getD 2 {}).aabb c6leaf).getD {}).surfaceArea <
        ((AABB.merge c6leaf (c6b.nodes.getD 0 {}).aabb).getD {}).surfaceArea +
          2 * (((AABB.merge (c6b.nodes.getD 2 {}).aabb c6leaf).getD {}).surfaceArea -
            (c6b.nodes.getD 2 {}).aabb.surfaceArea)) ∧
    runT (sahDescend c6leaf 2 5) c6b = (Except.ok 1, c6b) ∧ (1 : Nat) ≠ 0 := by decide

unseal Rat.mul Rat.add Rat.sub Rat.inv in
/-- C6 witness: the amended tie-break theorem applied at the root of `c6b`. -/
theorem c6_amended_witness :
    sahDescend c6leaf 2 5 c6b = sahDescend c6leaf (c6b.nodes.getD 2 {}).right 4 c6b :=
  c6_amended_tie_goes_right c6b c6leaf 2 4 (c6b.nodes.getD 2 {}) (c6b.nodes.getD 0 {})
    (c6b.nodes.getD 1 {}) ((AABB.merge (c6b.nodes.getD 2 {}).aabb c6leaf).getD {})
    ((AABB.merge c6leaf (c6b.nodes.getD 0 {}).aabb).getD {})
    ((AABB.merge c6leaf (c6b.nodes.getD 1 {}).aabb).getD {})
    7 7
    (by decide) (by decide) (by decide) (by decide) (by decide) (by decide) (by decide)
    (by decide) (by decide) (by decide) (by decide)

unseal Rat.mul Rat.add Rat.sub Rat.inv in
/-- C9 witness: with particles 5 and 4294967295 both registered at
`(0,0)–(1,1)`, the AABB query over that box returns `[5]` only. -/
theorem c9_witness :
    tMax2.particleMap.lookup 4294967295 = some 1 ∧
    runT (queryAABB (boxAABB [0, 0] [1, 1])) tMax2 =
      runT (query2 4294967295 (boxAABB [0, 0] [1, 1])) tMax2 ∧
    runT (query2 4294967295 (boxAABB [0, 0] [1, 1])) tMax2 = (Except.ok [5], tMax2) ∧
    4294967295 ∉ [5] := by
  refine ⟨by decide, c9_query_excludes_max_id.1 tMax2 _ (by decide), by decide, ?_⟩
  exact c9_query_excludes_max_id.2 tMax2 (boxAABB [0, 0] [1, 1]) [5] tMax2 (by decide)

end Abby
